import Mathlib

/-!
Verification of the torchsupport neighbourhood-reduction and chunked-distribution
core against its natural-language specification.

The Python sources are shallowly embedded over exact rational arithmetic:

* a dense rank-1 tensor is a `List ℚ`, a rank-2 tensor (a batch of feature
  rows) is a `List (List ℚ)`, and a rank-3 tensor is nested one level deeper;
* `torch.nn.Linear` is a weight matrix plus a bias vector, applied row-wise;
* the exponential inside softmax is an arbitrary parameter `e : ℚ → ℚ`, since
  every property proved here holds for any choice of the kernel function;
* fallible tensor operations (for example `Tensor.transpose` with an
  out-of-range dimension) return `Option`/`Except` values;
* Python's `torch.nn.parallel.Scatter` and the segment primitives
  (`scatter.mean/add/softmax`) as well as the `PackedTensor` container are not
  part of the sources under verification; they are modelled from the
  specification, as marked in their doc comments.
-/

/-- A feature vector: one row of a dense tensor. -/
abbrev Vec := List ℚ

/-- A rank-2 tensor, stored as a list of rows. -/
abbrev Mat := List Vec

/-- A rank-3 tensor. -/
abbrev T3 := List Mat

/-- Dot product of two equally long vectors. -/
def dotQ (a b : Vec) : ℚ := (List.zipWith (· * ·) a b).sum

/-- Elementwise sum of two vectors (shapes agree at every use site). -/
def addVec (a b : Vec) : Vec := List.zipWith (· + ·) a b

/-- Elementwise sum of two rank-2 tensors. -/
def addMat (a b : Mat) : Mat := List.zipWith addVec a b

/-- A zero tensor with the same shape as the argument. -/
def zerosLike (m : Mat) : Mat := m.map (fun r => r.map (fun _ => 0))

/-- Scale every entry of a rank-2 tensor. -/
def scaleMat (c : ℚ) (m : Mat) : Mat := m.map (fun r => r.map (fun x => c * x))

/-- `torch.nn.Linear`: a learned `(out, in)` weight matrix and an `out` bias. -/
structure LinearLayer where
  weight : Mat
  bias : Vec

/-- Apply a linear layer to a single feature row. -/
def linearApply (p : LinearLayer) (x : Vec) : Vec :=
  List.zipWith (fun wrow b => dotQ wrow x + b) p.weight p.bias

/-- Apply a linear layer independently to every row of a rank-2 tensor. -/
def linearRows (p : LinearLayer) (m : Mat) : Mat := m.map (linearApply p)

/-- Sum of the rows of a rank-2 tensor (`tensor.sum(dim=0)` for equal-length
rows); the empty tensor sums to the empty row. -/
def sumDim0 : Mat → Vec
  | [] => []
  | [r] => r
  | r :: rest => addVec r (sumDim0 rest)

/-- Column `c` of every row, for `c` below the width of the first row: the
columns of a rectangular rank-2 tensor. -/
def extractColumns (rows : Mat) : Mat :=
  (List.range (rows.headD []).length).map (fun c => rows.map (fun r => r.getD c 0))

/-! ## parallel.py — packed ragged tensors and the chunked distributor -/

/-- Modelled from the spec: `PackedTensor`
(torchsupport/modules/structured/packedtensor.py is not among the sources):
"flat value array + per-graph length list representing multiple variable-size
graphs in one batch" (spec §3), with the invariant `sum(index) = len(values)`
stated - but deliberately never checked - by the specification. -/
structure PackedTensor where
  values : Mat
  index : List ℕ

/-- `chunk_sizes` (parallel.py lines 11-18): with `chops = len(lengths) //
num_targets`, the share of device `idx` is `sum(lengths[idx*chops : (idx+1)*chops])`. -/
def chunk_sizes (lengths : List ℕ) (num_targets : ℕ) : List ℕ :=
  let chops := lengths.length / num_targets
  (List.range num_targets).map (fun idx => ((lengths.drop (idx * chops)).take chops).sum)

/-- Modelled from the spec: `torch.nn.parallel.scatter_gather.Scatter.apply`
with an explicit size list (the external "split the flat value array along its
row axis into N chunks matching exactly the sizes computed in step 1 (a general
split-by-given-sizes primitive)" of spec §4.4): one chunk per requested size,
taken consecutively. -/
def splitBySizes : Mat → List ℕ → List Mat
  | _, [] => []
  | xs, s :: rest => xs.take s :: splitBySizes (xs.drop s) rest

/-- Modelled from the spec: `Scatter.apply` with `chunk_sizes = None`, the
"ordinary equal-row split across N devices" of spec §4.4 step 4: near-equal
consecutive row chunks, the first `len mod N` chunks one row larger. -/
def equalSplit (numTargets : ℕ) (t : Mat) : List Mat :=
  splitBySizes t
    ((List.range numTargets).map
      (fun i => t.length / numTargets + if i < t.length % numTargets then 1 else 0))

/-- `chunk_packed_tensor` (parallel.py lines 23-33).  The device list only
enters through its length, so it is passed as a count.  Note the faithful
translation of the loop: `offset` is initialised to `0` before the loop and
never advanced inside it, so every child receives the slice
`tensor.index[0 : step]` of the original index. -/
def chunk_packed_tensor (tensor : PackedTensor) (numTargets : ℕ) : List PackedTensor :=
  let sizes := chunk_sizes tensor.index numTargets
  let chunks := splitBySizes tensor.values sizes
  let offset := 0
  let step := tensor.index.length / numTargets
  chunks.map (fun chunk => ⟨chunk, (tensor.index.drop offset).take step⟩)

/-- A Python value as seen by `scatter_chunked`: packed ragged tensors, plain
tensors, tuples, lists, dicts (a dict is its ordered key/value item list),
strings and otherwise-unknown objects (identified by a tag, standing for
object identity).  The abstract `Chunkable` class of parallel.py has no
concrete instance anywhere in the repository, so no constructor models it. -/
inductive PyObj where
  | packed : PackedTensor → PyObj
  | tensor : Mat → PyObj
  | tup : List PyObj → PyObj
  | pylist : List PyObj → PyObj
  | dict : List (PyObj × PyObj) → PyObj
  | pystr : String → PyObj
  | obj : ℕ → PyObj

instance : Inhabited PyObj := ⟨.obj 0⟩

/-- Length of the shortest member of a list of lists (`0` for no members). -/
def minLen (xss : List (List α)) : ℕ :=
  match xss with
  | [] => 0
  | x :: xs => xs.foldl (fun m l => min m l.length) x.length

/-- Python's `zip(*xss)`: truncating transposition, one output group per
position below the length of the shortest input list.  The default element is
never reached because every index stays below each member's length. -/
def pyZip [Inhabited α] (xss : List (List α)) : List (List α) :=
  (List.range (minLen xss)).map (fun i => xss.map (fun l => l.getD i default))

mutual

/-- `scatter_map` inside `scatter_chunked` (parallel.py lines 45-59), with the
same dispatch order as the `isinstance` chain: packed ragged tensor, plain
tensor, non-empty tuple, non-empty list, non-empty dict, and the fallthrough
that replicates a reference to the very same object once per device.  Dict
items are `(key, value)` 2-tuples, so Python's tuple branch turns each item
into the elementwise zip of the chunked key and the chunked value. -/
def scatterMap (numTargets : ℕ) : PyObj → List PyObj
  | .packed t => (chunk_packed_tensor t numTargets).map PyObj.packed
  | .tensor t => (equalSplit numTargets t).map PyObj.tensor
  | .tup es =>
    if es.isEmpty then List.replicate numTargets (.tup es)
    else (pyZip (scatterMapList numTargets es)).map PyObj.tup
  | .pylist es =>
    if es.isEmpty then List.replicate numTargets (.pylist es)
    else (pyZip (scatterMapList numTargets es)).map PyObj.pylist
  | .dict kvs =>
    if kvs.isEmpty then List.replicate numTargets (.dict kvs)
    else (pyZip (scatterMapItems numTargets kvs)).map PyObj.dict
  | .pystr s => List.replicate numTargets (.pystr s)
  | .obj o => List.replicate numTargets (.obj o)

/-- `map(scatter_map, obj)` over the members of a tuple or list. -/
def scatterMapList (numTargets : ℕ) : List PyObj → List (List PyObj)
  | [] => []
  | x :: xs => scatterMap numTargets x :: scatterMapList numTargets xs

/-- `map(scatter_map, obj.items())` over the items of a dict; each item is a
2-tuple, whose tuple-branch result is the zip of the two chunked components. -/
def scatterMapItems (numTargets : ℕ) : List (PyObj × PyObj) → List (List (PyObj × PyObj))
  | [] => []
  | (k, v) :: xs =>
    (scatterMap numTargets k).zip (scatterMap numTargets v) :: scatterMapItems numTargets xs

end

/-- `scatter_chunked` (parallel.py lines 39-64): distribute one batch over
`numTargets` devices by `scatter_map`. -/
def scatter_chunked (inputs : PyObj) (numTargets : ℕ) : List PyObj :=
  scatterMap numTargets inputs

/-! ## Segment primitives (external interface, spec §6) -/

/-- Modelled from the spec: `scatter.softmax` (the `torchsupport.structured.scatter`
module is not among the sources): "segment_softmax(values, segment_ids,
num_segments)" groupwise softmax keyed by an integer segment id.  Softmax is
taken per column of a `(rows, width)` value tensor within each segment, the
exponential being the parameter `e`.  The `num_segments` argument does not
change the output shape, which is one weight row per input row. -/
def segment_softmax (e : ℚ → ℚ) (values : Mat) (indices : List ℕ)
    (num_segments : ℕ) : Mat :=
  let _ := num_segments
  (values.zip indices).map (fun vi =>
    vi.1.mapIdx (fun h x =>
      e x /
        (((values.zip indices).filter (fun wj => wj.2 == vi.2)).map
          (fun wj => e (wj.1.getD h 0))).sum))

/-- Modelled from the spec: `scatter.add`, "segment_add(values, segment_ids,
num_segments), returning the identity element for empty segments" (spec §6):
the rank-2 members carrying one segment id are summed elementwise; a segment
with no members yields the zero tensor (shaped like the first member row). -/
def segment_add (values : T3) (indices : List ℕ) (num_segments : ℕ) : T3 :=
  (List.range num_segments).map (fun s =>
    ((values.zip indices).filter (fun vi => vi.2 == s)).foldr
      (fun vi acc => addMat vi.1 acc) (zerosLike (values.headD [])))

/-! ## basic.py — the aggregation dispatcher -/

/-- The three structure modes of `MessageMode` together with the payload the
structure provider's `message(source, target)` produces for that mode
(spec §3/§4.1): a `(nodes, K, channels)` message in constant mode; gathered
source rows, gathered target rows, edge target-ids and the node count in
scatter mode; one per-graph message per target row otherwise. -/
inductive StructureMsg where
  | constantMsg : T3 → StructureMsg
  | scatterMsg : Mat → Mat → List ℕ → ℕ → StructureMsg
  | otherMsg : List T3 → StructureMsg

/-- The message of the `raise NotImplementedError` in `ConnectedModule.forward`
(basic.py lines 69-71).  The source string is a plain literal, not an f-string,
so the interpolation braces and `self.__class__.__name__` appear verbatim. -/
def unsupportedScatterMsg : String :=
  "Scattering-based implementation not supported for \x7bself.__class__.__name__\x7d."

/-- One reduction strategy as `ConnectedModule.forward` sees it: its class
name, the `has_scatter` capability flag and the two reduce methods.  The
abstract `reduce_scatter` of the base class raises, which an `Except` value
models; result type `R` is left open because the plain reducers return torch
named tuples rather than bare tensors. -/
structure ConnectedModuleM (R : Type) where
  className : String
  has_scatter : Bool
  reduce : Mat → T3 → R
  reduceScatter : Mat → Mat → List ℕ → ℕ → Except String R

/-- `ConnectedModule.forward` (basic.py lines 63-79): constant mode calls the
constant-mode reduce on the target rows and the message; scatter mode requires
the `has_scatter` capability and otherwise raises with the literal message
above; any other mode loops over per-graph messages, reducing one unsqueezed
target row at a time and concatenating (`cat`) along dimension 0. -/
def cmForward (cat : List R → R) (m : ConnectedModuleM R)
    (source target : Mat) (structure' : StructureMsg) : Except String R :=
  let _ := source
  match structure' with
  | .constantMsg msg => .ok (m.reduce target msg)
  | .scatterMsg s t idx n =>
    if m.has_scatter then m.reduceScatter t s idx n
    else .error unsupportedScatterMsg
  | .otherMsg msgs =>
    .ok (cat ((msgs.enum).map (fun im => m.reduce [target.getD im.1 []] im.2)))

/-- Decide whether a forward call succeeded. -/
def exceptIsOk : Except String R → Bool
  | .ok _ => true
  | .error _ => false

/-! ## basic.py — plain reducers (NeighbourReducer and friends) -/

/-- Result of a torch reduction over one dimension: `torch.mean`/`torch.sum`
return a bare tensor, while `torch.min`/`torch.max`/`torch.median` with a
`dim` argument return a `(values, indices)` named tuple. -/
inductive ReduceOut where
  | tensor : Mat → ReduceOut
  | withIndices : Mat → List (List ℕ) → ReduceOut
deriving DecidableEq

/-- Whether a reduction produced a bare tensor (rather than a named tuple). -/
def ReduceOut.isBare : ReduceOut → Bool
  | .tensor _ => true
  | .withIndices _ _ => false

/-- The values component of a reduction result. -/
def ReduceOut.values : ReduceOut → Mat
  | .tensor t => t
  | .withIndices v _ => v

/-- `torch.mean(message, dim=1)` on a `(N, K, C)` tensor: per target row, the
columnwise sums of the `K` neighbour rows divided by `K`. -/
def torchMean1 (t : T3) : Mat :=
  t.map (fun rows => (sumDim0 rows).map (fun x => x / (rows.length : ℚ)))

/-- `torch.sum(message, dim=1)` on a `(N, K, C)` tensor. -/
def torchSum1 (t : T3) : Mat := t.map sumDim0

/-- Minimum of a vector together with the index of its first occurrence. -/
def argminAux : Vec → ℚ × ℕ
  | [] => (0, 0)
  | [x] => (x, 0)
  | x :: y :: xs =>
    let mi := argminAux (y :: xs)
    if x ≤ mi.1 then (x, 0) else (mi.1, mi.2 + 1)

/-- Maximum of a vector together with the index of its first occurrence. -/
def argmaxAux : Vec → ℚ × ℕ
  | [] => (0, 0)
  | [x] => (x, 0)
  | x :: y :: xs =>
    let mi := argmaxAux (y :: xs)
    if mi.1 ≤ x then (x, 0) else (mi.1, mi.2 + 1)

/-- `torch.min(message, dim=1)`: the named tuple of columnwise minima and
their (first) indices along the neighbour axis. -/
def torchMin1 (t : T3) : Mat × List (List ℕ) :=
  (t.map (fun rows => (extractColumns rows).map (fun col => (argminAux col).1)),
   t.map (fun rows => (extractColumns rows).map (fun col => (argminAux col).2)))

/-- `torch.max(message, dim=1)`: the named tuple of columnwise maxima and
their (first) indices along the neighbour axis. -/
def torchMax1 (t : T3) : Mat × List (List ℕ) :=
  (t.map (fun rows => (extractColumns rows).map (fun col => (argmaxAux col).1)),
   t.map (fun rows => (extractColumns rows).map (fun col => (argmaxAux col).2)))

/-- Insert into an ascending list, keeping it ascending. -/
def insertSorted (x : ℚ) : Vec → Vec
  | [] => [x]
  | y :: ys => if x ≤ y then x :: y :: ys else y :: insertSorted x ys

/-- Ascending insertion sort, the model of torch's internal sort. -/
def sortQ (l : Vec) : Vec := l.foldr insertSorted []

/-- `torch.median(message, dim=1)`: per column, the lower median (the element
at position `(K-1)/2` of the ascending sort) and the position of its first
occurrence in the unsorted column. -/
def torchMedian1 (t : T3) : Mat × List (List ℕ) :=
  (t.map (fun rows => (extractColumns rows).map
      (fun col => (sortQ col).getD ((col.length - 1) / 2) 0)),
   t.map (fun rows => (extractColumns rows).map
      (fun col => col.indexOf ((sortQ col).getD ((col.length - 1) / 2) 0))))

/-- `NeighbourReducer.reduce` (basic.py lines 442-443) applied with
`reduction = torch.mean` (`NeighbourMean`): the reduction of the message at
`dim=1`, ignoring the target's own features. -/
def neighbourMean_reduce (own_data : Mat) (source_message : T3) : ReduceOut :=
  let _ := own_data
  .tensor (torchMean1 source_message)

/-- `NeighbourReducer.reduce` with `reduction = torch.sum` (`NeighbourSum`). -/
def neighbourSum_reduce (own_data : Mat) (source_message : T3) : ReduceOut :=
  let _ := own_data
  .tensor (torchSum1 source_message)

/-- `NeighbourReducer.reduce` with `reduction = torch.min` (`NeighbourMin`):
a named tuple, not a bare tensor. -/
def neighbourMin_reduce (own_data : Mat) (source_message : T3) : ReduceOut :=
  let _ := own_data
  .withIndices (torchMin1 source_message).1 (torchMin1 source_message).2

/-- `NeighbourReducer.reduce` with `reduction = torch.max` (`NeighbourMax`). -/
def neighbourMax_reduce (own_data : Mat) (source_message : T3) : ReduceOut :=
  let _ := own_data
  .withIndices (torchMax1 source_message).1 (torchMax1 source_message).2

/-- `NeighbourReducer.reduce` with `reduction = torch.median`
(`NeighbourMedian`). -/
def neighbourMedian_reduce (own_data : Mat) (source_message : T3) : ReduceOut :=
  let _ := own_data
  .withIndices (torchMedian1 source_message).1 (torchMedian1 source_message).2

/-- `NeighbourMean` as a `ConnectedModule` (basic.py lines 437-447): the base
constructor leaves `has_scatter = False`, `reduce` is the `dim=1` mean of the
message, and `reduce_scatter` is the abstract method of the base class, which
raises.  The result type is the bare tensor the mean reduction produces. -/
def neighbourMeanM : ConnectedModuleM Mat :=
  { className := "NeighbourMean"
    has_scatter := false
    reduce := fun _own msg => torchMean1 msg
    reduceScatter := fun _ _ _ _ => .error "Abstract" }

/-! ## basic.py — NeighbourAssignment, scatter path -/

/-- Entry `(a, b, c)` of a rank-3 tensor, read through defaults. -/
def t3get (t : T3) (a b c : ℕ) : ℚ := ((t.getD a []).getD b []).getD c 0

/-- `Tensor.transpose(i, j)` on a rank-3 tensor: swaps axes `i` and `j` when
both name one of the three dimensions, and fails (torch raises "Dimension out
of range") otherwise. -/
def transposeT3 (i j : ℕ) (t : T3) : Option T3 :=
  if i < 3 ∧ j < 3 then
    let dims : ℕ → ℕ := fun k =>
      if k = 0 then t.length
      else if k = 1 then (t.headD []).length
      else ((t.headD []).headD []).length
    let swap : ℕ → ℕ := fun k => if k = i then j else if k = j then i else k
    some ((List.range (dims (swap 0))).map (fun a =>
      (List.range (dims (swap 1))).map (fun b =>
        (List.range (dims (swap 2))).map (fun c =>
          t3get t ([a, b, c].getD (swap 0) 0) ([a, b, c].getD (swap 1) 0)
            ([a, b, c].getD (swap 2) 0)))))
  else none

/-- Elementwise product of two vectors with torch's trailing-dimension
broadcasting: a length-one operand is stretched to the other's length. -/
def mulBCVec (a b : Vec) : Vec :=
  if a.length = 1 then b.map (fun x => a.headD 0 * x)
  else if b.length = 1 then a.map (fun x => x * b.headD 0)
  else List.zipWith (· * ·) a b

/-- Broadcast product of two rank-2 tensors (size-one axes stretched). -/
def mulBCMat (a b : Mat) : Mat :=
  if a.length = 1 then b.map (fun r => mulBCVec (a.headD []) r)
  else if b.length = 1 then a.map (fun r => mulBCVec r (b.headD []))
  else List.zipWith mulBCVec a b

/-- Broadcast product of two rank-3 tensors (size-one axes stretched). -/
def mulBCT3 (a b : T3) : T3 :=
  if a.length = 1 then b.map (fun m => mulBCMat (a.headD []) m)
  else if b.length = 1 then a.map (fun m => mulBCMat m (b.headD []))
  else List.zipWith mulBCMat a b

/-- Softmax along the last dimension of a rank-2 tensor (`func.softmax(x,
dim=-1)`), with `e` the exponential kernel. -/
def rowSoftmax (e : ℚ → ℚ) (m : Mat) : Mat :=
  m.map (fun r => r.map (fun x => e x / (r.map e).sum))

/-- Modelled from the spec: the segment-mean primitive has signature
"segment_mean(values, segment_ids, num_segments)" (spec §6).  The call
`scatter.mean(result, dim_size=node_count)` in
`NeighbourAssignment.reduce_scatter` (basic.py line 156) passes only the
values and the segment count, omitting the required segment-id argument - in
Python a `TypeError` as soon as the call is reached, modelled as failure. -/
def scatterMeanNoIndices (values : T3) (node_count : ℕ) : Option T3 :=
  let _ := values
  let _ := node_count
  none

/-- The learned state of `NeighbourAssignment` (basic.py lines 136-145):
`size` kernel maps without bias (their absent bias is the zero vector), a
`(1, out)` bias parameter, and the two auxiliary assignment projections. -/
structure NeighbourAssignmentP where
  linears : List LinearLayer
  bias : Vec
  source : LinearLayer
  target : LinearLayer

/-- `NeighbourAssignment.reduce_scatter` (basic.py lines 147-156), line by
line: project the gathered target rows and the gathered source rows to the
kernel slots; stack the per-kernel images of the source message
(`torch.cat` of the unsqueezed images along dimension 0); take the softmax of
`source + target` over the last dimension and unsqueeze it to the rank-3
tensor of shape `(1, edges, size)`; then `assignment.transpose(0, 3)` - a
dimension-3 transpose of a rank-3 tensor - and, were that reached, the
index-less `scatter.mean` call. -/
def assignment_reduce_scatter (e : ℚ → ℚ) (p : NeighbourAssignmentP)
    (own_data source_message : Mat) (indices : List ℕ) (node_count : ℕ) :
    Option T3 :=
  let _ := indices
  let target := linearRows p.target own_data
  let source := linearRows p.source source_message
  let weighted : T3 := p.linears.map (fun lin => linearRows lin source_message)
  let assignment : T3 := [rowSoftmax e (addMat source target)]
  (transposeT3 0 3 assignment).bind
    (fun a => scatterMeanNoIndices (mulBCT3 a weighted) node_count)

/-! ## basic.py — NeighbourMultiHeadAttention -/

/-- `x.view(*x.shape[:-1], -1, heads)` on one feature row: reshape the last
dimension of size `width * heads` into `(width, heads)` in row-major order,
so group `m` holds the entries `m * heads` to `(m+1) * heads - 1`. -/
def viewHeads (heads : ℕ) (row : Vec) : Mat :=
  (List.range (row.length / heads)).map (fun m => (row.drop (m * heads)).take heads)

/-- The learned state of `NeighbourMultiHeadAttention` (basic.py lines
320-331): the attention width, head count and output width, and the four
linear layers. -/
structure NeighbourMHAP where
  attention_size : ℕ
  heads : ℕ
  out_size : ℕ
  query : LinearLayer
  key : LinearLayer
  value : LinearLayer
  output : LinearLayer

/-- `NeighbourDotMultiHeadAttention.attend` (basic.py lines 402-404):
`(query * data).sum(dim=-2) / sqrt(attention_size)` on `(edges, width, heads)`
tensors.  `torch.sqrt` of the attention width is irrational in general, so the
scaling divisor is a parameter of the embedding. -/
def dotAttendMH (scaling : ℚ) (query data : T3) : Mat :=
  (List.zipWith (fun q d => sumDim0 (List.zipWith (fun qr dr =>
    List.zipWith (· * ·) qr dr) q d)) query data).map
    (fun r => r.map (fun x => x / scaling))

/-- `NeighbourAddMultiHeadAttention.attend` (basic.py lines 434-435):
`(query + data).sum(dim=-2)`. -/
def addAttendMH (query data : T3) : Mat :=
  List.zipWith (fun q d => sumDim0 (addMat q d)) query data

/-- `NeighbourMultiHeadAttention.reduce_scatter` (basic.py lines 348-361),
parameterised over the subclass's `attend` kernel: a zero edge list
short-circuits to `torch.zeros(node_count, out_size)`; otherwise the
query/key/value projections are reshaped to `(rows, width, heads)`, the
attention weights are the segment softmax of the attend logits over the edge
target-ids, and the weighted values are segment-summed, flattened back to
`(node_count, width * heads)` and passed through the output projection. -/
def mha_reduce_scatter (e : ℚ → ℚ) (attend : T3 → T3 → Mat) (p : NeighbourMHAP)
    (own_data source_message : Mat) (indices : List ℕ) (node_count : ℕ) : Mat :=
  if indices.length = 0 then
    List.replicate node_count (List.replicate p.out_size 0)
  else
    let target := (linearRows p.query own_data).map (viewHeads p.heads)
    let source := (linearRows p.key source_message).map (viewHeads p.heads)
    let value := (linearRows p.value source_message).map (viewHeads p.heads)
    let attention := segment_softmax e (attend target source) indices node_count
    let result := segment_add
      (List.zipWith (fun att v => v.map (fun row => List.zipWith (· * ·) att row))
        attention value)
      indices node_count
    linearRows p.output (result.map List.flatten)

/-! ## weights.py — learning-rate equalization and weight demodulation -/

/-- The kind of torch module a wrapper receives: one of the four layer kinds
`WeightDemodulation.__init__` recognizes, or anything else (tagged with its
Python class name). -/
inductive LayerKind where
  | linear
  | conv1d
  | conv2d
  | conv3d
  | otherLayer (name : String)
deriving DecidableEq

/-- The Python errors the construction path can raise: attribute lookups that
fail in `LREqualization.__init__` (a missing `weight`/`bias`, or `zero_` on a
`None` bias) and the explicit `NotImplementedError`. -/
inductive PyError where
  | attributeError (attr : String)
  | notImplementedError (msg : String)
deriving DecidableEq

/-- The `dynamic_*` functions of `torchsupport.modules.dynamic` that
`WeightDemodulation.__init__` selects from; their bodies are outside this
core's scope (spec §1), only the selection is modelled. -/
inductive DynamicFunc where
  | dynamic_linear
  | dynamic_conv1d
  | dynamic_conv2d
  | dynamic_conv3d
deriving DecidableEq

/-- A torch module as the wrappers see it: its kind, its `weight` attribute
(`none` when the attribute is missing), its `bias` (`none` when missing or
`None` - either way the base initializer fails before the kind check), and
the four convolution attributes `conv_names` copies for convolution layers. -/
structure NNModule where
  kind : LayerKind
  weight : Option Mat
  bias : Option Vec
  stride : ℕ
  kernel_size : ℕ
  dilation : ℕ
  padding : ℕ

/-- `LREqualization.__init__` (weights.py lines 38-47): reads the wrapped
module's `weight` and `bias` attributes, then re-initialises the weight with a
fresh normal draw scaled by `1 / lr_scale` and zeroes the bias in place.  The
random draw is passed in as `sample`, randomness being out of scope.  A
module without a usable `weight` or `bias` fails here, before any subclass
code runs. -/
def lrEqualizationInit (sample : Mat) (lr_scale : ℚ) (m : NNModule) :
    Except PyError (Mat × Vec) :=
  match m.weight with
  | none => .error (.attributeError "weight")
  | some _w =>
    match m.bias with
    | none => .error (.attributeError "bias")
    | some b => .ok (scaleMat (1 / lr_scale) sample, b.map (fun _ => 0))

/-- The message of the `NotImplementedError` in `WeightDemodulation.__init__`
(weights.py lines 102-105). -/
def wdUnsupportedMsg : String :=
  "Weight demodulation is only implemented for Linear and Conv layers."

/-- The keyword arguments `WeightDemodulation.__init__` copies from a
convolution module, in `conv_names` order (weights.py lines 79-81). -/
def convKwargs (m : NNModule) : List (String × ℕ) :=
  [("stride", m.stride), ("kernel_size", m.kernel_size),
   ("dilation", m.dilation), ("padding", m.padding)]

/-- The state `WeightDemodulation.__init__` leaves behind when it succeeds:
the (re-initialised) weight and bias from the base class, the selected
`dynamic_*` forward function and the copied convolution keyword arguments. -/
structure WDState where
  weight : Mat
  bias : Vec
  func : DynamicFunc
  kwargs : List (String × ℕ)
deriving DecidableEq

/-- `WeightDemodulation.__init__` (weights.py lines 83-105): first the base
`LREqualization.__init__` runs (and can fail on the attribute reads), then the
`isinstance` chain selects `dynamic_linear` for a linear layer or the matching
`dynamic_conv*` plus copied attributes for a 1D/2D/3D convolution, and any
other kind raises `NotImplementedError`.  The scalar attribute stores
(`epsilon`, `gain`, `lr_scale`), which no claim touches, are not recorded. -/
def weightDemodulationInit (sample : Mat) (lr_scale : ℚ) (m : NNModule) :
    Except PyError WDState :=
  match lrEqualizationInit sample lr_scale m with
  | .error err => .error err
  | .ok wb =>
    match m.kind with
    | .linear => .ok ⟨wb.1, wb.2, .dynamic_linear, []⟩
    | .conv1d => .ok ⟨wb.1, wb.2, .dynamic_conv1d, convKwargs m⟩
    | .conv2d => .ok ⟨wb.1, wb.2, .dynamic_conv2d, convKwargs m⟩
    | .conv3d => .ok ⟨wb.1, wb.2, .dynamic_conv3d, convKwargs m⟩
    | .otherLayer _ => .error (.notImplementedError wdUnsupportedMsg)

/-! ## Specification-side definitions

The following definitions restate what the specification's words promise,
independently of the translations above; the claim theorems compare the two. -/

/-- Spec-side: the mean of the entries of one column. -/
def specMean (col : Vec) : ℚ := col.sum / (col.length : ℚ)

/-- Spec-side: the sum of the entries of one column. -/
def specSum (col : Vec) : ℚ := col.sum

/-- Spec-side: the minimum of one column (right-nested binary minima). -/
def specMin : Vec → ℚ
  | [] => 0
  | [x] => x
  | x :: y :: xs => min x (specMin (y :: xs))

/-- Spec-side: the maximum of one column. -/
def specMax : Vec → ℚ
  | [] => 0
  | [x] => x
  | x :: y :: xs => max x (specMax (y :: xs))

/-- Spec-side: the lower median of one column, through Mathlib's insertion
sort rather than the hand-rolled sort of the torch model. -/
def specMedian (col : Vec) : ℚ :=
  (List.insertionSort (· ≤ ·) col).getD ((col.length - 1) / 2) 0

/-- Spec-side: "the named statistic over the neighbour axis of the
constant-mode message" (spec §4.3): statistic `f` of every column of every
target row's neighbourhood. -/
def specStat (f : Vec → ℚ) (msg : T3) : Mat :=
  msg.map (fun rows => (extractColumns rows).map f)

/-- Spec-side: the four layer kinds the claim recognizes. -/
def recognizedLayerKind : LayerKind → Bool
  | .linear => true
  | .conv1d => true
  | .conv2d => true
  | .conv3d => true
  | .otherLayer _ => false

/-! ## Concrete instances used by witnesses and counterexamples -/

/-- The packed ragged tensor of the specification's concrete chunking example
(spec §8): seven single-channel value rows and the index `[3, 4]`. -/
def specExampleTensor : PackedTensor :=
  ⟨[[0], [1], [2], [3], [4], [5], [6]], [3, 4]⟩

/-- An evenly divisible packed ragged tensor: eight rows in two graphs. -/
def evenTensor : PackedTensor :=
  ⟨[[0], [1], [2], [3], [4], [5], [6], [7]], [3, 5]⟩

/-- A tiny multi-head attention parameter set with output width three. -/
def mhaP0 : NeighbourMHAP := ⟨1, 1, 3, ⟨[], []⟩, ⟨[], []⟩, ⟨[], []⟩, ⟨[], []⟩⟩

/-- A second parameter set with the same output width but different learned
layers, to witness that the zero-edge result uses none of them. -/
def mhaP1 : NeighbourMHAP :=
  ⟨2, 2, 3, ⟨[[1]], [0]⟩, ⟨[[2]], [1]⟩, ⟨[[3]], [2]⟩, ⟨[[4]], [3]⟩⟩

/-- A module lacking both `weight` and `bias` attributes, such as `nn.ReLU`. -/
def reluModule : NNModule := ⟨.otherLayer "ReLU", none, none, 0, 0, 0, 0⟩

/-- An unrecognized layer kind that does expose `weight` and `bias`. -/
def embModule : NNModule :=
  ⟨.otherLayer "ConvTranspose2d", some [[1]], some [0], 1, 1, 1, 1⟩

/-! ## Claim theorems -/

/-- **C1.** The claimed constant/scatter agreement fails at
`NeighbourAssignment`: its scatter-mode reduction never produces a value at
all.  `assignment` there has rank 3, so `assignment.transpose(0, 3)` is a
dimension-out-of-range error for every parameter set and every input (and the
`scatter.mean` call behind it omits its segment-id argument), while the
constant-mode `reduce` is a total computation - the two modes cannot agree
numerically as the claim requires. -/
theorem c1_assignment_scatter_always_fails
    (e : ℚ → ℚ) (p : NeighbourAssignmentP) (own_data source_message : Mat)
    (indices : List ℕ) (node_count : ℕ) :
    assignment_reduce_scatter e p own_data source_message indices node_count
      = none := by
  simp [assignment_reduce_scatter, transposeT3]

/-- **C2.** Evaluating `chunk_packed_tensor` at the specification's own
example (seven value rows, index `[3, 4]`, two devices): the value rows split
as claimed, but both children receive the index slice `[3]`, because the
slicing offset is never advanced - device 1 does not receive `[4]`. -/
theorem c2_chunk_packed_tensor_example :
    (chunk_packed_tensor specExampleTensor 2).map PackedTensor.index = [[3], [3]]
  ∧ (chunk_packed_tensor specExampleTensor 2).map PackedTensor.values
      = [[[0], [1], [2]], [[3], [4], [5], [6]]] := by
  constructor
  · rfl
  · decide

/-- **C3.** Multi-head attention scatter reduction over zero edges, for any
attend kernel, any exponential and any parameters: the result is the
`node_count × out_size` zero tensor, and it is identical under any other
parameter set with the same output width - no learned layer enters. -/
theorem c3_mha_zero_edges (e : ℚ → ℚ) (attend : T3 → T3 → Mat)
    (p p' : NeighbourMHAP) (own_data source_message : Mat) (node_count : ℕ)
    (hout : p.out_size = p'.out_size) :
    mha_reduce_scatter e attend p own_data source_message [] node_count
      = List.replicate node_count (List.replicate p.out_size 0)
  ∧ mha_reduce_scatter e attend p own_data source_message [] node_count
      = mha_reduce_scatter e attend p' own_data source_message [] node_count := by
  constructor
  · simp [mha_reduce_scatter]
  · simp [mha_reduce_scatter, hout]

/-- Witness for C3 at concrete inputs: two different parameter sets with
output width three, five nodes, zero edges. -/
theorem c3_mha_zero_edges_witness :
    mhaP0.out_size = mhaP1.out_size
  ∧ (mha_reduce_scatter id (fun _ _ => []) mhaP0 [] [] [] 5
        = List.replicate 5 (List.replicate mhaP0.out_size 0)
    ∧ mha_reduce_scatter id (fun _ _ => []) mhaP0 [] [] [] 5
        = mha_reduce_scatter id (fun _ _ => []) mhaP1 [] [] [] 5) :=
  ⟨rfl, c3_mha_zero_edges id (fun _ _ => []) mhaP0 mhaP1 [] [] 5 rfl⟩

/-- **C4.** A strategy without scatter capability (here `NeighbourMean`)
invoked in scatter mode raises, but the message is the verbatim template of
basic.py line 70 - the `f` prefix is missing, so the strategy's class name
does not occur in it; constant-mode and other-mode calls never produce this
error. -/
theorem c4_unsupported_mode_message :
    (∀ (source target s t : Mat) (idx : List ℕ) (n : ℕ),
      cmForward List.flatten neighbourMeanM source target (.scatterMsg s t idx n)
        = .error unsupportedScatterMsg)
  ∧ ¬ (neighbourMeanM.className.data <:+: unsupportedScatterMsg.data)
  ∧ (∀ (source target : Mat) (msg : T3),
      exceptIsOk (cmForward List.flatten neighbourMeanM source target
        (.constantMsg msg)) = true)
  ∧ (∀ (source target : Mat) (msgs : List T3),
      exceptIsOk (cmForward List.flatten neighbourMeanM source target
        (.otherMsg msgs)) = true) :=
  ⟨fun _ _ _ _ _ _ => rfl, by set_option maxRecDepth 4000 in decide,
   fun _ _ _ => rfl, fun _ _ _ => rfl⟩

/-- **C9 counterexample.** Constructing the weight-demodulation wrapper over a
weightless module of unrecognized kind (such as `nn.ReLU`) does not raise the
unsupported-layer-kind error the claim promises: the base initializer's
attribute read fails first. -/
theorem c9_relu_not_unsupported_error :
    weightDemodulationInit [[1]] 1 reluModule
        ≠ .error (.notImplementedError wdUnsupportedMsg)
  ∧ weightDemodulationInit [[1]] 1 reluModule = .error (.attributeError "weight") := by
  refine ⟨?_, rfl⟩
  intro h
  simp only [show weightDemodulationInit [[1]] 1 reluModule
      = .error (.attributeError "weight") from rfl] at h
  injection h with h2
  exact PyError.noConfusion h2

/-- **C9 (amended).** For a module that does expose `weight` and `bias`, the
construction raises the unsupported-layer-kind `NotImplementedError` exactly
when its kind is none of `nn.Linear`, `nn.Conv1d`, `nn.Conv2d`, `nn.Conv3d`. -/
theorem c9_wd_unsupported_iff (sample : Mat) (lr_scale : ℚ) (m : NNModule)
    (w : Mat) (b : Vec) (hw : m.weight = some w) (hb : m.bias = some b) :
    (weightDemodulationInit sample lr_scale m
        = .error (.notImplementedError wdUnsupportedMsg))
      ↔ recognizedLayerKind m.kind = false := by
  unfold weightDemodulationInit lrEqualizationInit
  rw [hw, hb]
  cases m.kind <;> simp [recognizedLayerKind]

/-- Witness for the amended C9: an unrecognized kind carrying weight and bias
raises exactly the unsupported-layer-kind error. -/
theorem c9_wd_unsupported_iff_witness :
    embModule.weight = some [[1]]
  ∧ embModule.bias = some [0]
  ∧ ((weightDemodulationInit [[1]] 1 embModule
        = .error (.notImplementedError wdUnsupportedMsg))
      ↔ recognizedLayerKind embModule.kind = false) :=
  ⟨rfl, rfl, c9_wd_unsupported_iff [[1]] 1 embModule [[1]] [0] rfl rfl⟩

/-- **C10.** `scatter_chunked` on an empty tuple, list or dict takes the
fallthrough branch: each device receives the original empty container itself,
with no per-element recursion. -/
theorem c10_empty_containers (numTargets : ℕ) :
    scatter_chunked (.tup []) numTargets
        = List.replicate numTargets (PyObj.tup [])
  ∧ scatter_chunked (.pylist []) numTargets
        = List.replicate numTargets (PyObj.pylist [])
  ∧ scatter_chunked (.dict []) numTargets
        = List.replicate numTargets (PyObj.dict []) := by
  refine ⟨?_, ?_, ?_⟩ <;> simp [scatter_chunked, scatterMap]

/-! ## List lemmas for the chunking claims -/

/-- The sum of a prefix as an indexed sum over positions. -/
theorem take_sum_eq_range_sum (l : List ℕ) :
    ∀ c : ℕ, (l.take c).sum = ∑ i ∈ Finset.range c, l.getD i 0 := by
  induction l with
  | nil => intro c; simp
  | cons x xs ih =>
    intro c
    cases c with
    | zero => simp
    | succ c =>
      rw [List.take_succ_cons, List.sum_cons, Finset.sum_range_succ']
      simp only [List.getD_cons_succ, List.getD_cons_zero]
      rw [ih c, Nat.add_comm]

/-- Reading behind a drop is reading at a shifted position. -/
theorem getD_drop_eq (l : List ℕ) (a i : ℕ) :
    (l.drop a).getD i 0 = l.getD (a + i) 0 := by
  rw [List.getD_eq_getElem?_getD, List.getD_eq_getElem?_getD, List.getElem?_drop]

/-- Element `d` of a mapped range, `d` in range. -/
theorem getD_map_range {β : Type} (f : ℕ → β) (N d : ℕ) (hd : d < N) (dflt : β) :
    ((List.range N).map f).getD d dflt = f d := by
  rw [List.getD_eq_getElem?_getD, List.getElem?_map, List.getElem?_range hd]
  rfl

/-- Splitting by sizes yields one chunk per size. -/
theorem splitBySizes_length (xs : Mat) (sizes : List ℕ) :
    (splitBySizes xs sizes).length = sizes.length := by
  induction sizes generalizing xs with
  | nil => simp [splitBySizes]
  | cons s rest ih => simp [splitBySizes, ih]

/-- Concatenating the chunks of a split-by-sizes recovers the prefix of the
total requested size. -/
theorem splitBySizes_flatten (sizes : List ℕ) :
    ∀ xs : Mat, (splitBySizes xs sizes).flatten = xs.take sizes.sum := by
  induction sizes with
  | nil => intro xs; simp [splitBySizes]
  | cons s rest ih =>
    intro xs
    rw [splitBySizes, List.flatten_cons, ih (xs.drop s), List.sum_cons,
      List.take_add]

/-- The chunk-size shares of the first `n` devices cover exactly the first
`n * chops` entries of the length list. -/
theorem chunk_slices_sum (L : List ℕ) (c : ℕ) :
    ∀ n : ℕ,
      (((List.range n).map (fun idx => ((L.drop (idx * c)).take c).sum)).sum)
        = (L.take (n * c)).sum := by
  intro n
  induction n with
  | zero => simp
  | succ n ih =>
    rw [List.range_succ, List.map_append, List.sum_append, ih]
    simp only [List.map_cons, List.map_nil, List.sum_cons, List.sum_nil]
    rw [Nat.succ_mul, List.take_add, List.sum_append]
    omega

/-- **C5.** `chunk_sizes` produces exactly one share per device, and the share
of device `d` is the sum of the lengths at positions `d * c` through
`(d+1) * c - 1`, with `c = floor(len / N)`; every share interval lies inside
the first `N * c` positions, so the `len mod N` trailing entries enter no
share. -/
theorem c5_chunk_sizes_shares (L : List ℕ) (N d : ℕ) (hd : d < N) :
    (chunk_sizes L N).length = N
  ∧ (chunk_sizes L N).getD d 0
      = ∑ i ∈ Finset.Ico (d * (L.length / N)) ((d + 1) * (L.length / N)),
          L.getD i 0 := by
  constructor
  · simp [chunk_sizes]
  · have hc : (d + 1) * (L.length / N) - d * (L.length / N) = L.length / N := by
      rw [Nat.succ_mul, Nat.add_sub_cancel_left]
    rw [Finset.sum_Ico_eq_sum_range, hc]
    unfold chunk_sizes
    rw [getD_map_range _ _ _ hd]
    rw [take_sum_eq_range_sum]
    exact Finset.sum_congr rfl (fun i _ => getD_drop_eq L _ i)

/-- Witness for C5: three graphs over two devices, second device. -/
theorem c5_chunk_sizes_shares_witness :
    1 < 2
  ∧ ((chunk_sizes [3, 4, 5] 2).length = 2
    ∧ (chunk_sizes [3, 4, 5] 2).getD 1 0
        = ∑ i ∈ Finset.Ico (1 * ([3, 4, 5].length / 2))
            ((1 + 1) * ([3, 4, 5].length / 2)), [3, 4, 5].getD i 0) :=
  ⟨by decide, c5_chunk_sizes_shares [3, 4, 5] 2 1 (by decide)⟩

/-- **C6.** When the device count divides the graph count and the packed
tensor satisfies its `sum(index) = len(values)` invariant, concatenating the
children's flat value arrays in device order reproduces the original flat
value array. -/
theorem c6_chunking_size_preserving (t : PackedTensor) (N : ℕ) (hN : 0 < N)
    (hdvd : N ∣ t.index.length) (hinv : t.index.sum = t.values.length) :
    ((chunk_packed_tensor t N).map PackedTensor.values).flatten = t.values := by
  have _ := hN
  unfold chunk_packed_tensor
  rw [List.map_map]
  have hvals : (PackedTensor.values ∘ fun chunk : Mat =>
      (⟨chunk, (t.index.drop 0).take (t.index.length / N)⟩ : PackedTensor))
        = id := rfl
  rw [hvals, List.map_id, splitBySizes_flatten]
  unfold chunk_sizes
  rw [chunk_slices_sum, Nat.mul_div_cancel' hdvd, List.take_length, hinv,
    List.take_length]

/-- Witness for C6: eight rows in two graphs over two devices. -/
theorem c6_chunking_size_preserving_witness :
    0 < 2
  ∧ (2 ∣ evenTensor.index.length)
  ∧ evenTensor.index.sum = evenTensor.values.length
  ∧ ((chunk_packed_tensor evenTensor 2).map PackedTensor.values).flatten
      = evenTensor.values :=
  ⟨by decide, by decide, by decide,
   c6_chunking_size_preserving evenTensor 2 (by decide) (by decide) (by decide)⟩

/-! ## Lemmas about the chunked distributor's shape -/

/-- `scatter_map` over a member list produces one chunk list per member. -/
theorem scatterMapList_count (N : ℕ) (es : List PyObj) :
    (scatterMapList N es).length = es.length := by
  induction es with
  | nil => simp [scatterMapList]
  | cons x xs ih => simp [scatterMapList, ih]

/-- `scatter_map` over a dict's items produces one chunk list per item. -/
theorem scatterMapItems_count (N : ℕ) (kvs : List (PyObj × PyObj)) :
    (scatterMapItems N kvs).length = kvs.length := by
  induction kvs with
  | nil => simp [scatterMapItems]
  | cons kv rest ih =>
    obtain ⟨k, v⟩ := kv
    simp [scatterMapItems, ih]

/-- Folding binary minima of lengths over uniform-length lists is a no-op. -/
theorem foldl_min_uniform {α : Type} (xs : List (List α)) (N : ℕ)
    (h : ∀ l ∈ xs, l.length = N) :
    xs.foldl (fun m l => min m l.length) N = N := by
  induction xs with
  | nil => rfl
  | cons x t ih =>
    rw [List.foldl_cons, h x (List.mem_cons_self x t), Nat.min_self]
    exact ih (fun l hl => h l (List.mem_cons_of_mem x hl))

/-- The minimum member length of a non-empty uniform family. -/
theorem minLen_of_uniform {α : Type} (xss : List (List α)) (N : ℕ)
    (hne : xss ≠ []) (h : ∀ l ∈ xss, l.length = N) : minLen xss = N := by
  cases xss with
  | nil => exact absurd rfl hne
  | cons x xs =>
    show xs.foldl (fun m l => min m l.length) x.length = N
    rw [h x (List.mem_cons_self x xs)]
    exact foldl_min_uniform xs N (fun l hl => h l (List.mem_cons_of_mem x hl))

/-- `pyZip` has one group per position below the shortest member length. -/
theorem pyZip_length {α : Type} [Inhabited α] (xss : List (List α)) :
    (pyZip xss).length = minLen xss := by
  simp [pyZip]

mutual

/-- Every branch of `scatter_map` hands back exactly one chunk per device. -/
theorem scatterMap_length (N : ℕ) (o : PyObj) : (scatterMap N o).length = N := by
  cases o with
  | packed t => simp [scatterMap, chunk_packed_tensor, splitBySizes_length, chunk_sizes]
  | tensor t => simp [scatterMap, equalSplit, splitBySizes_length]
  | tup es =>
    by_cases h : es.isEmpty
    · simp [scatterMap, h]
    · have hne : scatterMapList N es ≠ [] := by
        intro hc
        have := scatterMapList_count N es
        rw [hc] at this
        cases es with
        | nil => exact h rfl
        | cons a b => simp at this
      simp only [scatterMap, h, Bool.false_eq_true, if_false, List.length_map,
        pyZip_length]
      exact minLen_of_uniform _ N hne (scatterMapList_uniform N es)
  | pylist es =>
    by_cases h : es.isEmpty
    · simp [scatterMap, h]
    · have hne : scatterMapList N es ≠ [] := by
        intro hc
        have := scatterMapList_count N es
        rw [hc] at this
        cases es with
        | nil => exact h rfl
        | cons a b => simp at this
      simp only [scatterMap, h, Bool.false_eq_true, if_false, List.length_map,
        pyZip_length]
      exact minLen_of_uniform _ N hne (scatterMapList_uniform N es)
  | dict kvs =>
    by_cases h : kvs.isEmpty
    · simp [scatterMap, h]
    · have hne : scatterMapItems N kvs ≠ [] := by
        intro hc
        have := scatterMapItems_count N kvs
        rw [hc] at this
        cases kvs with
        | nil => exact h rfl
        | cons a b => simp at this
      simp only [scatterMap, h, Bool.false_eq_true, if_false, List.length_map,
        pyZip_length]
      exact minLen_of_uniform _ N hne (scatterMapItems_uniform N kvs)
  | pystr s => simp [scatterMap]
  | obj o => simp [scatterMap]

/-- Every member chunk list of a tuple or list has one chunk per device. -/
theorem scatterMapList_uniform (N : ℕ) (es : List PyObj) :
    ∀ l ∈ scatterMapList N es, l.length = N := by
  match es with
  | [] => intro l hl; simp [scatterMapList] at hl
  | x :: xs =>
    intro l hl
    rw [scatterMapList] at hl
    rcases List.mem_cons.mp hl with h | h
    · rw [h]; exact scatterMap_length N x
    · exact scatterMapList_uniform N xs l h

/-- Every item chunk list of a dict has one chunk per device. -/
theorem scatterMapItems_uniform (N : ℕ) (kvs : List (PyObj × PyObj)) :
    ∀ l ∈ scatterMapItems N kvs, l.length = N := by
  match kvs with
  | [] => intro l hl; simp [scatterMapItems] at hl
  | (k, v) :: xs =>
    intro l hl
    rw [scatterMapItems] at hl
    rcases List.mem_cons.mp hl with h | h
    · rw [h, List.length_zip, scatterMap_length, scatterMap_length, Nat.min_self]
    · exact scatterMapItems_uniform N xs l h

end

/-- Group `d` of `pyZip`, for `d` below the shortest member length. -/
theorem pyZip_getElem_pos {α : Type} [Inhabited α] (xss : List (List α)) (d : ℕ)
    (hd : d < minLen xss) :
    (pyZip xss)[d]? = some (xss.map (fun l => l.getD d default)) := by
  unfold pyZip
  rw [List.getElem?_map, List.getElem?_range hd]
  rfl

/-- Position `d` of a zip, for `d` in range on both sides. -/
theorem zip_getD_pos {α β : Type} [Inhabited α] [Inhabited β]
    (a : List α) (b : List β) (d : ℕ) (ha : d < a.length) (hb : d < b.length) :
    (a.zip b).getD d default = (a.getD d default, b.getD d default) := by
  have h1 : a[d]? = some a[d] := List.getElem?_eq_getElem ha
  have h2 : b[d]? = some b[d] := List.getElem?_eq_getElem hb
  have hz : (a.zip b)[d]? = some (a[d], b[d]) :=
    List.getElem?_zip_eq_some.mpr ⟨h1, h2⟩
  rw [List.getD_eq_getElem?_getD, List.getD_eq_getElem?_getD,
    List.getD_eq_getElem?_getD, h1, h2, hz]
  rfl

/-- Position `d` of a replication, for `d` in range. -/
theorem replicate_getD_pos {α : Type} [Inhabited α] (N d : ℕ) (x : α)
    (hd : d < N) : (List.replicate N x).getD d default = x := by
  rw [List.getD_eq_getElem?_getD, List.getElem?_replicate]
  simp [hd]

/-- Chunking a string replicates it to every device. -/
theorem scatterMap_pystr (N : ℕ) (s : String) :
    scatterMap N (.pystr s) = List.replicate N (.pystr s) := by
  simp [scatterMap]

/-- **C7.** Chunking a two-field record over `N` devices yields `N` records;
the record of device `d` binds the first key to chunk `d` of the first value
and the second key to chunk `d` of the second value - chunking a record is
chunking its fields independently and regrouping per device. -/
theorem c7_record_fieldwise (N : ℕ) (s1 s2 : String) (v1 v2 : PyObj) (d : ℕ)
    (hd : d < N) :
    (scatter_chunked (.dict [(.pystr s1, v1), (.pystr s2, v2)]) N).length = N
  ∧ (scatter_chunked (.dict [(.pystr s1, v1), (.pystr s2, v2)]) N).getD d default
      = .dict [(.pystr s1, (scatter_chunked v1 N).getD d default),
               (.pystr s2, (scatter_chunked v2 N).getD d default)] := by
  refine ⟨scatterMap_length N _, ?_⟩
  have hitems : scatterMapItems N [(.pystr s1, v1), (.pystr s2, v2)]
      = [(scatterMap N (.pystr s1)).zip (scatterMap N v1),
         (scatterMap N (.pystr s2)).zip (scatterMap N v2)] := by
    simp [scatterMapItems]
  have l1 : ((scatterMap N (.pystr s1)).zip (scatterMap N v1)).length = N := by
    rw [List.length_zip, scatterMap_length, scatterMap_length, Nat.min_self]
  have l2 : ((scatterMap N (.pystr s2)).zip (scatterMap N v2)).length = N := by
    rw [List.length_zip, scatterMap_length, scatterMap_length, Nat.min_self]
  have hmin : minLen [(scatterMap N (.pystr s1)).zip (scatterMap N v1),
      (scatterMap N (.pystr s2)).zip (scatterMap N v2)] = N := by
    apply minLen_of_uniform _ N (by simp)
    intro l hl
    rcases List.mem_cons.mp hl with h | h
    · rw [h]; exact l1
    · rcases List.mem_cons.mp h with h2 | h2
      · rw [h2]; exact l2
      · simp at h2
  have hsm : scatterMap N (.dict [(.pystr s1, v1), (.pystr s2, v2)])
      = (pyZip [(scatterMap N (.pystr s1)).zip (scatterMap N v1),
                (scatterMap N (.pystr s2)).zip (scatterMap N v2)]).map PyObj.dict := by
    rw [scatterMap, hitems]
    rfl
  have hpz : (pyZip [(scatterMap N (.pystr s1)).zip (scatterMap N v1),
      (scatterMap N (.pystr s2)).zip (scatterMap N v2)])[d]?
      = some ([(scatterMap N (.pystr s1)).zip (scatterMap N v1),
               (scatterMap N (.pystr s2)).zip (scatterMap N v2)].map
          (fun l => l.getD d default)) :=
    pyZip_getElem_pos _ d (by rw [hmin]; exact hd)
  show (scatterMap N (.dict [(.pystr s1, v1), (.pystr s2, v2)])).getD d default = _
  rw [hsm, List.getD_eq_getElem?_getD, List.getElem?_map, hpz]
  simp only [List.map_cons, List.map_nil, Option.map_some, Option.getD_some]
  have hz1 : ((scatterMap N (.pystr s1)).zip (scatterMap N v1)).getD d default
      = ((scatterMap N (.pystr s1)).getD d default,
         (scatterMap N v1).getD d default) :=
    zip_getD_pos _ _ d (by rw [scatterMap_length]; exact hd)
      (by rw [scatterMap_length]; exact hd)
  have hz2 : ((scatterMap N (.pystr s2)).zip (scatterMap N v2)).getD d default
      = ((scatterMap N (.pystr s2)).getD d default,
         (scatterMap N v2).getD d default) :=
    zip_getD_pos _ _ d (by rw [scatterMap_length]; exact hd)
      (by rw [scatterMap_length]; exact hd)
  rw [hz1, hz2, scatterMap_pystr, scatterMap_pystr,
    replicate_getD_pos N d _ hd, replicate_getD_pos N d _ hd]
  rfl

/-- Witness for C7: two tensor-valued fields over two devices, device 1. -/
theorem c7_record_fieldwise_witness :
    1 < 2
  ∧ ((scatter_chunked (.dict [(.pystr "a", .tensor [[1], [2]]),
        (.pystr "b", .tensor [[3], [4]])]) 2).length = 2
    ∧ (scatter_chunked (.dict [(.pystr "a", .tensor [[1], [2]]),
          (.pystr "b", .tensor [[3], [4]])]) 2).getD 1 default
        = .dict [(.pystr "a",
              (scatter_chunked (.tensor [[1], [2]]) 2).getD 1 default),
            (.pystr "b",
              (scatter_chunked (.tensor [[3], [4]]) 2).getD 1 default)]) :=
  ⟨by decide,
   c7_record_fieldwise 2 "a" "b" (.tensor [[1], [2]]) (.tensor [[3], [4]]) 1
     (by decide)⟩

/-! ## Lemmas about the plain reducers -/

/-- Reading every position of a list in order reproduces the list. -/
theorem map_getD_range {α : Type} (l : List α) (dflt : α) :
    (List.range l.length).map (fun c => l.getD c dflt) = l := by
  induction l with
  | nil => simp
  | cons x xs ih =>
    rw [List.length_cons, List.range_succ_eq_map, List.map_cons, List.map_map]
    simp only [Function.comp_def, List.getD_cons_zero, List.getD_cons_succ]
    rw [ih]

/-- Zipping two images of the same list adds them pointwise. -/
theorem zipWith_add_map_same {ι : Type} (l : List ι) (f g : ι → ℚ) :
    List.zipWith (· + ·) (l.map f) (l.map g) = l.map (fun i => f i + g i) := by
  induction l with
  | nil => rfl
  | cons x xs ih => simp [ih]

/-- Every column of a rank-2 tensor has one entry per row. -/
theorem extractColumns_member_length (rows : Mat) :
    ∀ col ∈ extractColumns rows, col.length = rows.length := by
  intro col hcol
  obtain ⟨c, _, hc⟩ := List.mem_map.mp hcol
  rw [← hc, List.length_map]

/-- Adding a row to a range-indexed image reads the row position-wise. -/
theorem addVec_map_range :
    ∀ (r : Vec) (g : ℕ → ℚ),
      addVec r ((List.range r.length).map g)
        = (List.range r.length).map (fun c => r.getD c 0 + g c)
  | [], _ => rfl
  | x :: xs, g => by
    rw [List.length_cons, List.range_succ_eq_map, List.map_cons, List.map_map,
      List.map_cons, List.map_map]
    show (x + g 0) :: addVec xs ((List.range xs.length).map (g ∘ Nat.succ)) = _
    rw [addVec_map_range xs (g ∘ Nat.succ)]
    simp [Function.comp_def]

/-- On a rectangular rank-2 tensor, the row sum along dimension 0 is the list
of column sums. -/
theorem sumDim0_eq_colsums :
    ∀ rows : Mat, (∀ r ∈ rows, r.length = (rows.headD []).length) →
      sumDim0 rows = (extractColumns rows).map List.sum
  | [], _ => by simp [sumDim0, extractColumns]
  | [r], _ => by
    simp only [sumDim0, extractColumns, List.headD_cons, List.map_cons,
      List.map_nil, List.map_map]
    simp only [Function.comp_def, List.sum_cons, List.sum_nil, add_zero]
    exact (map_getD_range r 0).symm
  | r :: y :: rest, h => by
    have hy : y.length = r.length := h y (by simp)
    have hall : ∀ x ∈ y :: rest, x.length = ((y :: rest).headD []).length := by
      intro x hx
      rw [List.headD_cons, hy]
      exact h x (List.mem_cons_of_mem r hx)
    have ih := sumDim0_eq_colsums (y :: rest) hall
    show addVec r (sumDim0 (y :: rest)) = _
    rw [ih]
    unfold extractColumns
    rw [List.headD_cons, List.headD_cons, hy, List.map_map, List.map_map,
      addVec_map_range]
    apply List.map_congr_left
    intro c _
    simp [Function.comp_def]

/-- The value component of the running argmin is the minimum. -/
theorem argminAux_fst : ∀ col : Vec, (argminAux col).1 = specMin col
  | [] => rfl
  | [x] => rfl
  | x :: y :: xs => by
    have ih := argminAux_fst (y :: xs)
    by_cases hc : x ≤ (argminAux (y :: xs)).1
    · simp only [argminAux, hc, if_true, specMin]
      rw [ih] at hc
      exact (min_eq_left hc).symm
    · simp only [argminAux, hc, if_false, specMin]
      rw [ih] at hc ⊢
      exact (min_eq_right (le_of_not_le hc)).symm

/-- The value component of the running argmax is the maximum. -/
theorem argmaxAux_fst : ∀ col : Vec, (argmaxAux col).1 = specMax col
  | [] => rfl
  | [x] => rfl
  | x :: y :: xs => by
    have ih := argmaxAux_fst (y :: xs)
    by_cases hc : (argmaxAux (y :: xs)).1 ≤ x
    · simp only [argmaxAux, hc, if_true, specMax]
      rw [ih] at hc
      exact (max_eq_left hc).symm
    · simp only [argmaxAux, hc, if_false, specMax]
      rw [ih] at hc ⊢
      exact (max_eq_right (le_of_not_le hc)).symm

/-- The hand-rolled sorted insertion agrees with Mathlib's. -/
theorem insertSorted_eq_orderedInsert (x : ℚ) :
    ∀ l : Vec, insertSorted x l = List.orderedInsert (· ≤ ·) x l
  | [] => rfl
  | y :: ys => by
    simp only [insertSorted, List.orderedInsert]
    rw [insertSorted_eq_orderedInsert x ys]

/-- The hand-rolled insertion sort agrees with Mathlib's. -/
theorem sortQ_eq_insertionSort : ∀ l : Vec, sortQ l = List.insertionSort (· ≤ ·) l
  | [] => rfl
  | x :: xs => by
    show insertSorted x (sortQ xs) = _
    rw [sortQ_eq_insertionSort xs, insertSorted_eq_orderedInsert,
      List.insertionSort]

/-- **C8 counterexample.** `NeighbourMin` constant-mode aggregation on a
concrete `(1, 2, 2)` message is a `(values, indices)` named tuple, not the
bare tensor of columnwise minima the claim promises. -/
theorem c8_min_not_bare :
    neighbourMin_reduce [[0, 0]] [[[1, 2], [3, 4]]]
      ≠ ReduceOut.tensor (specStat specMin [[[1, 2], [3, 4]]]) := by
  decide

/-- **C8 (amended).** On a rectangular constant-mode message, `NeighbourMean`
and `NeighbourSum` return the bare tensor of the named columnwise statistic,
while `NeighbourMin`, `NeighbourMax` and `NeighbourMedian` return torch named
tuples whose values component carries the named statistic. -/
theorem c8_reducer_statistics (own_data : Mat) (msg : T3)
    (hrect : ∀ rows ∈ msg, ∀ r ∈ rows, r.length = (rows.headD []).length) :
    neighbourMean_reduce own_data msg = .tensor (specStat specMean msg)
  ∧ neighbourSum_reduce own_data msg = .tensor (specStat specSum msg)
  ∧ (neighbourMin_reduce own_data msg).isBare = false
  ∧ (neighbourMin_reduce own_data msg).values = specStat specMin msg
  ∧ (neighbourMax_reduce own_data msg).isBare = false
  ∧ (neighbourMax_reduce own_data msg).values = specStat specMax msg
  ∧ (neighbourMedian_reduce own_data msg).isBare = false
  ∧ (neighbourMedian_reduce own_data msg).values = specStat specMedian msg := by
  refine ⟨?_, ?_, rfl, ?_, rfl, ?_, rfl, ?_⟩
  · unfold neighbourMean_reduce torchMean1 specStat
    congr 1
    apply List.map_congr_left
    intro rows hrows
    rw [sumDim0_eq_colsums rows (hrect rows hrows), List.map_map]
    apply List.map_congr_left
    intro col hcol
    simp only [Function.comp_def, specMean,
      extractColumns_member_length rows col hcol]
  · unfold neighbourSum_reduce torchSum1 specStat
    congr 1
    apply List.map_congr_left
    intro rows hrows
    exact sumDim0_eq_colsums rows (hrect rows hrows)
  · show (torchMin1 msg).1 = _
    unfold torchMin1 specStat
    simp only [argminAux_fst]
  · show (torchMax1 msg).1 = _
    unfold torchMax1 specStat
    simp only [argmaxAux_fst]
  · show (torchMedian1 msg).1 = _
    unfold torchMedian1 specStat specMedian
    simp only [sortQ_eq_insertionSort]

/-- Witness for the amended C8 at a concrete rectangular message. -/
theorem c8_reducer_statistics_witness :
    (∀ rows ∈ ([[[1, 2], [3, 4]]] : T3), ∀ r ∈ rows,
        r.length = (rows.headD []).length)
  ∧ (neighbourMean_reduce [[0, 0]] [[[1, 2], [3, 4]]]
        = .tensor (specStat specMean [[[1, 2], [3, 4]]])
    ∧ neighbourSum_reduce [[0, 0]] [[[1, 2], [3, 4]]]
        = .tensor (specStat specSum [[[1, 2], [3, 4]]])
    ∧ (neighbourMin_reduce [[0, 0]] [[[1, 2], [3, 4]]]).isBare = false
    ∧ (neighbourMin_reduce [[0, 0]] [[[1, 2], [3, 4]]]).values
        = specStat specMin [[[1, 2], [3, 4]]]
    ∧ (neighbourMax_reduce [[0, 0]] [[[1, 2], [3, 4]]]).isBare = false
    ∧ (neighbourMax_reduce [[0, 0]] [[[1, 2], [3, 4]]]).values
        = specStat specMax [[[1, 2], [3, 4]]]
    ∧ (neighbourMedian_reduce [[0, 0]] [[[1, 2], [3, 4]]]).isBare = false
    ∧ (neighbourMedian_reduce [[0, 0]] [[[1, 2], [3, 4]]]).values
        = specStat specMedian [[[1, 2], [3, 4]]]) :=
  ⟨by decide, c8_reducer_statistics [[0, 0]] [[[1, 2], [3, 4]]] (by decide)⟩
